import Mathlib

/-!
# Verification of the fastbloom parameter calculator and hashing scheme

Shallow embedding of the repository's Rust sources:

* `src/fastbloom-rs/src/builder.rs` — the `FilterBuilder` parameter
  calculator (`optimal_m`, `optimal_k`, `complete`, `is_compatible_to`, …).
* `src/benches/fastbloom.rs` — the `bloom_hash` double-hashing function.

Modelling conventions:

* Rust `u64`/`u32` values are `ℕ`; where overflow or truncation matters the
  code's wrapping/truncating behaviour is written explicitly as `% 2 ^ 64`
  (release-mode wrapping semantics for `+`, and the `as u64` narrowing cast).
* Rust `f64` values are modelled as real numbers (`ℝ`), with `f64::ln`
  modelled by `Real.log` and `f64::ceil` followed by an `as u64` cast
  modelled by the integer ceiling, saturating below at `0` and above at
  `2 ^ 64 - 1` exactly as Rust's float-to-integer cast does.
* The external SipHasher13 keyed hash is abstracted as an arbitrary
  function from a hasher state and an item to a 64-bit digest: the source
  only clones, feeds and finishes hashers, never inspects their internals.
* A Rust function that panics (`todo!()`/`assert!`) is embedded as an
  `Option`-valued function returning `none` on the panicking inputs.

The bloom filter engine itself (`filter.rs`) is not part of the sources;
where a claim needs it, a definition is modelled from the spec and marked
as such in its doc comment.
-/

namespace Fastbloom

/-! ## The double-hashing function from `src/benches/fastbloom.rs`

```rust
fn bloom_hash<T>(hashes: &mut [u64; 2], item: &T, k_i: u32, sips: &mut [SipHasher13; 2]) -> u64
{
    if k_i < 2 {
        let mut sip = &mut sips[k_i as usize].clone();
        item.hash(sip);
        let hash = sip.finish();
        hashes[k_i as usize] = hash;
        hash
    } else {
        (hashes[0] as u128).wrapping_add((k_i as u128).wrapping_mul(hashes[1] as u128)) as u64
            % 0xffffffffffffffc5
    }
}
```

The mutable arrays `hashes` and `sips` are threaded explicitly: the result
is the updated `hashes` pair, the updated `sips` pair and the returned
digest.  `digest s x` abstracts "clone hasher `s`, hash `x` into the clone,
and `finish` it"; since the clone is local, `sips` itself is returned
unchanged by the source, which the embedding makes explicit.  In the
`k_i ≥ 2` branch the `u128` wrapping operations are `% 2 ^ 128` and the
`as u64` narrowing (applied *before* the modulus, by Rust operator
precedence) is `% 2 ^ 64`. -/
def bloom_hash {α σ : Type} (digest : σ → α → ℕ) (hashes : ℕ × ℕ) (item : α)
    (k_i : ℕ) (sips : σ × σ) : (ℕ × ℕ) × (σ × σ) × ℕ :=
  if k_i < 2 then
    if k_i = 0 then
      let h := digest sips.1 item
      ((h, hashes.2), sips, h)
    else
      let h := digest sips.2 item
      ((hashes.1, h), sips, h)
  else
    (hashes, sips,
      (hashes.1 + (k_i * hashes.2) % 2 ^ 128) % 2 ^ 128 % 2 ^ 64 % 0xffffffffffffffc5)

/-! ## The parameter calculator from `src/fastbloom-rs/src/builder.rs` -/

/-- Rust: `pub(crate) const SUFFIX: u64 = 0b0001_1111;` (= 31, the low five bits). -/
def SUFFIX : ℕ := 0b11111

/-- Rust: `pub(crate) const MASK: u64 = 0b11111111_…_11100000;` (all 64 bits set
except the low five). -/
def MASK : ℕ := 0xffffffffffffffe0

/-- Rust's `f64 -> u64` `as` cast applied to a (mathematically exact)
integer: saturating at the ends of the `u64` range.  `Int.toNat` realises
the saturation at `0` for negative inputs. -/
def toU64 (z : ℤ) : ℕ := min z.toNat (2 ^ 64 - 1)

/-- Rust's `f64 -> u32` `as` cast, saturating at the ends of the `u32`
range. -/
def toU32 (z : ℤ) : ℕ := min z.toNat (2 ^ 32 - 1)

/-- The rounding step of `optimal_m`:

```rust
let mut m = m.ceil() as u64;
if (m & SUFFIX) != 0 {
    m = (m & MASK) + SUFFIX + 1;
};
```

The addition is a `u64` addition, hence the `% 2 ^ 64` (release-mode
wrapping semantics). -/
def round32 (m : ℕ) : ℕ :=
  if m &&& SUFFIX ≠ 0 then ((m &&& MASK) + SUFFIX + 1) % 2 ^ 64 else m

/-- Rust source:
```rust
fn optimal_m(n: u64, p: f64) -> u64 {
    let fact = -(n as f64) * p.ln();
    let div = 2f64.ln().powi(2);
    let m: f64 = fact / div;
    let mut m = m.ceil() as u64;
    if (m & SUFFIX) != 0 { m = (m & MASK) + SUFFIX + 1; };
    m
}
``` -/
noncomputable def optimal_m (n : ℕ) (p : ℝ) : ℕ :=
  round32 (toU64 ⌈(-(n : ℝ) * Real.log p) / (Real.log 2) ^ 2⌉)

/-- Rust source:
```rust
fn optimal_k(n: u64, m: u64) -> u32 {
    let k: f64 = (m as f64 * 2f64.ln()) / n as f64;
    k.ceil() as u32
}
``` -/
noncomputable def optimal_k (n : ℕ) (m : ℕ) : ℕ :=
  toU32 ⌈((m : ℝ) * Real.log 2) / (n : ℝ)⌉

/-- Rust source:
```rust
pub struct FilterBuilder {
    expected_elements: u64,
    false_positive_probability: f64,
    pub(crate) size: u64,
    pub(crate) hashes: u32,
    done: bool,
}
``` -/
structure FilterBuilder where
  expected_elements : ℕ
  false_positive_probability : ℝ
  size : ℕ
  hashes : ℕ
  done : Bool

/-- The constructor `FilterBuilder::new` stores its two arguments unchecked and zeroes the
remaining fields; the source performs no validation here. -/
def FilterBuilder.new (expected_elements : ℕ) (false_positive_probability : ℝ) :
    FilterBuilder :=
  { expected_elements := expected_elements
    false_positive_probability := false_positive_probability
    size := 0
    hashes := 0
    done := false }

/-- The function `FilterBuilder::from_size_and_hashes` is `todo!()`: it panics on every
input, embedded as `none`. -/
def FilterBuilder.from_size_and_hashes (size : ℕ) (hashes : ℕ) :
    Option FilterBuilder :=
  none

/-- The private setter `fn expected_elements(&mut self, expected_elements: u64)`;
its `assert!(expected_elements > 0, …)` panic is embedded as `none`.
(Named `set_expected_elements` because the field already takes the source
name.) -/
def FilterBuilder.set_expected_elements (b : FilterBuilder)
    (expected_elements : ℕ) : Option FilterBuilder :=
  if expected_elements > 0 then some { b with expected_elements := expected_elements }
  else none

open scoped Classical in
/-- The private setter `fn false_positive_probability(&mut self, p: f64)`;
its `assert!(p < 1.0 && p > 0.0, …)` panic is embedded as `none`. -/
noncomputable def FilterBuilder.set_false_positive_probability (b : FilterBuilder)
    (false_positive_probability : ℝ) : Option FilterBuilder :=
  if false_positive_probability < 1 ∧ false_positive_probability > 0 then
    some { b with false_positive_probability := false_positive_probability }
  else none

/-- The private setter `fn size(&mut self, size: u64)` (no validation).
(Named `set_size` because the field already takes the source name.) -/
def FilterBuilder.set_size (b : FilterBuilder) (size : ℕ) : FilterBuilder :=
  { b with size := size }

/-- Rust source:
```rust
pub(crate) fn complete(&mut self) {
    if !self.done {
        if self.size == 0 {
            self.size = optimal_m(self.expected_elements, self.false_positive_probability);
            self.hashes = optimal_k(self.expected_elements, self.size);
        }
        self.done = true;
    }
}
``` -/
noncomputable def FilterBuilder.complete (b : FilterBuilder) : FilterBuilder :=
  if b.done then b
  else if b.size = 0 then
    let m := optimal_m b.expected_elements b.false_positive_probability
    { b with size := m, hashes := optimal_k b.expected_elements m, done := true }
  else
    { b with done := true }

/-- Rust source:
```rust
pub(crate) fn is_compatible_to(&self, other: &FilterBuilder) -> bool {
    self.size == other.size && self.hashes == other.hashes
}
``` -/
def FilterBuilder.is_compatible_to (b other : FilterBuilder) : Bool :=
  b.size == other.size && b.hashes == other.hashes

/-! ## Spec-side definitions

These two definitions follow the words of the specification (not the
source); they exist only to be compared with the source-derived
definitions above. -/

/-- Follows the spec's words: `optimal_size(n, p)` "computes
`m = ceil(-n * ln(p) / (ln 2)^2)`, then rounds `m` up to the next multiple
of 32 (if `m` is already a multiple of 32, leave unchanged; otherwise round
up to the smallest larger multiple of 32)". -/
noncomputable def optimal_size_spec (n : ℕ) (p : ℝ) : ℕ :=
  if 32 ∣ (⌈(-(n : ℝ) * Real.log p) / (Real.log 2) ^ 2⌉).toNat then
    (⌈(-(n : ℝ) * Real.log p) / (Real.log 2) ^ 2⌉).toNat
  else
    32 * ((⌈(-(n : ℝ) * Real.log p) / (Real.log 2) ^ 2⌉).toNat / 32 + 1)

open scoped Classical in
/-- Follows the spec's words: `newBuilder(expectedElements, falsePositiveProbability)`
"fails if `expectedElements == 0` or probability outside `(0,1)`"
(`InvalidParameter`, checked at configuration time). -/
noncomputable def newBuilder_spec (n : ℕ) (p : ℝ) : Option FilterBuilder :=
  if n = 0 ∨ p ≤ 0 ∨ 1 ≤ p then none else some (FilterBuilder.new n p)

/-! ## The bloom filter engine, modelled from the spec

`filter.rs` (the `BloomFilter` type with `add`/`contains`) is not among
the sources; only its builder and its benchmarks are.  The engine is
therefore modelled from the spec, §4.2. -/

/-- Modelled from the spec: the missing `filter.rs` `BloomFilter` state —
"bits: bit array of length bit_array_size, all bits initially 0, set-only"
together with the frozen parameters `bit_array_size` and `hash_count`.
The set-only bit array is the finite set of indices of set bits. -/
structure BloomFilter (α : Type) where
  size : ℕ
  hashes : ℕ
  bits : Finset ℕ

/-- Modelled from the spec: the final bit index for hash index `i`,
"Final bit index: `h_i mod bit_array_size`", with the per-instance hash
position derivation abstracted as a function `hf` from the index `i` and
the element to the 64-bit combined hash `h_i`. -/
def bloomIndex {α : Type} (hf : ℕ → α → ℕ) (size : ℕ) (i : ℕ) (x : α) : ℕ :=
  hf i x % size

/-- Modelled from the spec: "**add(element_bytes)**: for each `i` in
`[0, k)`, compute the bit index as above and set that bit in the array." -/
def BloomFilter.add {α : Type} (hf : ℕ → α → ℕ) (f : BloomFilter α) (x : α) :
    BloomFilter α :=
  { f with bits := f.bits ∪ (Finset.range f.hashes).image fun i => bloomIndex hf f.size i x }

/-- Modelled from the spec: "**contains(element_bytes) -> bool**: for each
`i` in `[0, k)`, compute the bit index; if any required bit is 0, return
`false` …. If all `k` bits are 1, return `true`." -/
def BloomFilter.contains {α : Type} (hf : ℕ → α → ℕ) (f : BloomFilter α) (x : α) :
    Bool :=
  decide (∀ i ∈ Finset.range f.hashes, bloomIndex hf f.size i x ∈ f.bits)

/-! ## Helper lemmas: the bloom filter engine -/

lemma BloomFilter.foldl_add_size {α : Type} (hf : ℕ → α → ℕ) (l : List α) :
    ∀ f : BloomFilter α, (List.foldl (BloomFilter.add hf) f l).size = f.size := by
  induction l with
  | nil => intro f; rfl
  | cons y t ih => intro f; exact ih (BloomFilter.add hf f y)

lemma BloomFilter.foldl_add_hashes {α : Type} (hf : ℕ → α → ℕ) (l : List α) :
    ∀ f : BloomFilter α, (List.foldl (BloomFilter.add hf) f l).hashes = f.hashes := by
  induction l with
  | nil => intro f; rfl
  | cons y t ih => intro f; exact ih (BloomFilter.add hf f y)

/-- Bits are set-only: `add` never clears a bit, so any sequence of `add`
calls only grows the bit set. -/
lemma BloomFilter.foldl_add_bits_mono {α : Type} (hf : ℕ → α → ℕ) (l : List α) :
    ∀ f : BloomFilter α, f.bits ⊆ (List.foldl (BloomFilter.add hf) f l).bits := by
  induction l with
  | nil => intro f; exact Finset.Subset.refl _
  | cons y t ih =>
      intro f
      exact Finset.Subset.trans (Finset.subset_union_left) (ih (BloomFilter.add hf f y))

/-! ## Helper lemmas: `round32` as rounding up to a multiple of 32 -/

lemma land_SUFFIX_eq_mod (c : ℕ) : c &&& SUFFIX = c % 32 := by
  have h : SUFFIX = 2 ^ 5 - 1 := by norm_num [SUFFIX]
  rw [h, Nat.and_pow_two_sub_one_eq_mod]

lemma testBit_MASK (i : ℕ) : MASK.testBit i = (decide (5 ≤ i) && decide (i < 64)) := by
  have hM : MASK = 2 ^ 5 * (2 ^ 59 - 1) := by norm_num [MASK]
  rw [hM, Nat.testBit_mul_pow_two, Nat.testBit_two_pow_sub_one, Bool.eq_iff_iff]
  simp only [Bool.and_eq_true, decide_eq_true_eq, ge_iff_le]
  omega

lemma land_MASK_eq (c : ℕ) (hc : c < 2 ^ 64) : c &&& MASK = 32 * (c / 32) := by
  have h32eq : (32 : ℕ) * (c / 32) = 2 ^ 5 * (c / 2 ^ 5) := by norm_num
  have hdecomp : c = 2 ^ 5 * (c / 2 ^ 5) + c % 2 ^ 5 := (Nat.div_add_mod _ _).symm
  have hrem : c % 2 ^ 5 < 2 ^ 5 := Nat.mod_lt _ (by norm_num)
  have hle : 32 * (c / 32) ≤ c := by omega
  apply Nat.eq_of_testBit_eq
  intro i
  by_cases h5 : 5 ≤ i
  · by_cases h64 : i < 64
    · -- middle bits: the mask is one there, both sides agree with bit i of c
      have hmask : MASK.testBit i = true := by
        rw [testBit_MASK, decide_eq_true h5, decide_eq_true h64]
        rfl
      have hrhs : (32 * (c / 32)).testBit i = (c / 2 ^ 5).testBit (i - 5) := by
        rw [h32eq, Nat.testBit_mul_pow_two,
          decide_eq_true (show i ≥ 5 from h5), Bool.true_and]
      have hcbit : c.testBit i = (c / 2 ^ 5).testBit (i - 5) := by
        conv_lhs => rw [hdecomp]
        rw [Nat.testBit_mul_pow_two_add _ hrem, if_neg (Nat.not_lt_of_le h5)]
      rw [Nat.testBit_and, hmask, Bool.and_true, hcbit, hrhs]
    · -- high bits: everything is zero
      have hmask : MASK.testBit i = false := by
        rw [testBit_MASK, decide_eq_false h64, Bool.and_false]
      have hrhs : (32 * (c / 32)).testBit i = false := by
        apply Nat.testBit_lt_two_pow
        calc 32 * (c / 32) ≤ c := hle
        _ < 2 ^ 64 := hc
        _ ≤ 2 ^ i := Nat.pow_le_pow_right (by norm_num) (by omega)
      rw [Nat.testBit_and, hmask, hrhs, Bool.and_false]
  · -- low bits: the mask is zero there, and so is a multiple of 32
    have hmask : MASK.testBit i = false := by
      rw [testBit_MASK, decide_eq_false h5, Bool.false_and]
    have hrhs : (32 * (c / 32)).testBit i = false := by
      rw [h32eq, Nat.testBit_mul_pow_two,
        decide_eq_false (show ¬ i ≥ 5 from h5), Bool.false_and]
    rw [Nat.testBit_and, hmask, hrhs, Bool.and_false]

/-- For inputs small enough that the `u64` addition cannot wrap, `round32`
is exactly "round up to the next multiple of 32". -/
lemma round32_eq_of_le (c : ℕ) (hc : c ≤ 2 ^ 64 - 32) :
    round32 c = if 32 ∣ c then c else 32 * (c / 32 + 1) := by
  have hpow : (2 : ℕ) ^ 64 = 18446744073709551616 := by norm_num
  have hc64 : c < 2 ^ 64 := by omega
  rw [round32, land_SUFFIX_eq_mod, land_MASK_eq c hc64]
  rcases Nat.eq_zero_or_pos (c % 32) with hz | hp
  · rw [if_neg (by omega), if_pos (Nat.dvd_of_mod_eq_zero hz)]
  · have hndvd : ¬ 32 ∣ c := fun hdvd => by
      have := Nat.mod_eq_zero_of_dvd hdvd
      omega
    rw [if_pos (by omega), if_neg hndvd]
    simp only [SUFFIX]
    rw [hpow] at hc ⊢
    omega

/-- Lemma: `round32` always returns a multiple of 32 (on any `u64` input, wrapping
included). -/
lemma round32_mod_32 (c : ℕ) (hc : c < 2 ^ 64) : round32 c % 32 = 0 := by
  have hpow : (2 : ℕ) ^ 64 = 18446744073709551616 := by norm_num
  rw [round32, land_SUFFIX_eq_mod, land_MASK_eq c hc]
  split
  · simp only [SUFFIX]
    rw [hpow]
    omega
  · omega

/-! ## Claims -/

/-- C1 (no false negatives; the engine is modelled from the spec, since
`filter.rs` is not among the sources): for every element `x`, every filter
state, and every sequence of `add` calls before and after `add x`, a
subsequent `contains x` returns `true`. -/
theorem claim_C1_no_false_negatives {α : Type} (hf : ℕ → α → ℕ)
    (f : BloomFilter α) (pre post : List α) (x : α) :
    BloomFilter.contains hf
      (List.foldl (BloomFilter.add hf)
        (BloomFilter.add hf (List.foldl (BloomFilter.add hf) f pre) x) post) x
      = true := by
  set g := List.foldl (BloomFilter.add hf) f pre with hg
  rw [BloomFilter.contains, decide_eq_true_eq]
  intro i hi
  rw [BloomFilter.foldl_add_hashes] at hi
  rw [BloomFilter.foldl_add_size]
  apply BloomFilter.foldl_add_bits_mono
  show bloomIndex hf (BloomFilter.add hf g x).size i x ∈
    (g.bits ∪ (Finset.range g.hashes).image fun j => bloomIndex hf g.size j x)
  exact Finset.mem_union_right _ (Finset.mem_image_of_mem _ hi)

/-- C9: `FilterBuilder::from_size_and_hashes` is `todo!()` — it panics
(yields no builder) on every input. -/
theorem claim_C9_from_size_and_hashes_unimplemented (size hashes : ℕ) :
    FilterBuilder.from_size_and_hashes size hashes = none :=
  rfl

/-- C10: `bloom_hash` is deterministic and has a bounded frame.  For
`k_i < 2` it hashes the element with a clone of the stored hasher, so the
`sips` pair is unchanged, only entry `k_i` of `hashes` is written (with the
digest of the element under the `k_i`-th hasher), the digest does not
depend on the incoming `hashes`, and repeating the call on the state it
returned yields the same digest.  For `k_i ≥ 2` it mutates neither
`hashes` nor `sips` and its digest depends only on `hashes[0]`,
`hashes[1]` and `k_i`. -/
theorem claim_C10_bloom_hash_frame {α σ : Type} (digest : σ → α → ℕ)
    (h h' : ℕ × ℕ) (item item' : α) (k : ℕ) (s s' : σ × σ) :
    (k < 2 →
      (bloom_hash digest h item k s).2.1 = s ∧
      (bloom_hash digest h item k s).2.2 = (bloom_hash digest h' item k s).2.2 ∧
      (k = 0 → (bloom_hash digest h item k s).1 = (digest s.1 item, h.2)) ∧
      (k = 1 → (bloom_hash digest h item k s).1 = (h.1, digest s.2 item)) ∧
      (bloom_hash digest (bloom_hash digest h item k s).1 item k
          (bloom_hash digest h item k s).2.1).2.2
        = (bloom_hash digest h item k s).2.2) ∧
    (2 ≤ k →
      (bloom_hash digest h item k s).1 = h ∧
      (bloom_hash digest h item k s).2.1 = s ∧
      (h.1 = h'.1 → h.2 = h'.2 →
        (bloom_hash digest h item k s).2.2
          = (bloom_hash digest h' item' k s').2.2)) := by
  constructor
  · intro hk
    rcases (show k = 0 ∨ k = 1 by omega) with h0 | h1
    · subst h0
      simp [bloom_hash]
    · subst h1
      simp [bloom_hash]
  · intro hk
    have hk' : ¬ k < 2 := Nat.not_lt_of_le hk
    refine ⟨by simp [bloom_hash, hk'], by simp [bloom_hash, hk'], ?_⟩
    intro e1 e2
    simp [bloom_hash, hk', e1, e2]

/-- Witness for C10 at a concrete input (`k_i = 0`). -/
theorem claim_C10_witness :
    (0 : ℕ) < 2 ∧
      (bloom_hash (fun s x => s + x) ((5 : ℕ), 7) (3 : ℕ) 0 ((11 : ℕ), 13)).2.1
        = (11, 13) :=
  ⟨by decide,
    ((claim_C10_bloom_hash_frame (fun s x => s + x) (5, 7) (5, 7) 3 3 0
      (11, 13) (11, 13)).1 (by decide)).1⟩

/-- C2, counterexample: the claim says the derived hash for `k_i ≥ 2`
is `(h_0 + k_i * h_1) mod (2^64 - 59)` with no truncation before the
modulus.  At `h_0 = 2^64 - 1`, `h_1 = 1`, `k_i = 2` the code's `as u64`
narrowing happens first (Rust casts bind tighter than `%`), so the code
returns `1` while the claimed formula gives `60`. -/
theorem claim_C2_counterexample :
    (bloom_hash (fun _ _ => (0 : ℕ) : Unit → Unit → ℕ)
        (2 ^ 64 - 1, 1) () 2 ((), ())).2.2
      ≠ (2 ^ 64 - 1 + 2 * 1) % (2 ^ 64 - 59) := by
  decide

/-- C2, amended: for `k_i ≥ 2` (with `h_0`, `h_1` in `u64` range and
`k_i` in `u32` range as the Rust types guarantee), the derived hash is
`((h_0 + k_i * h_1) mod 2^64) mod (2^64 - 59)`: the 128-bit sum is
narrowed to 64 bits *before* the modulus `2^64 - 59` is applied. -/
theorem claim_C2_derived_hash_truncates_first {α σ : Type} (digest : σ → α → ℕ)
    (h : ℕ × ℕ) (item : α) (k : ℕ) (s : σ × σ)
    (hk : 2 ≤ k) (hk32 : k < 2 ^ 32) (h0 : h.1 < 2 ^ 64) (h1 : h.2 < 2 ^ 64) :
    (bloom_hash digest h item k s).2.2
      = (h.1 + k * h.2) % 2 ^ 64 % (2 ^ 64 - 59) := by
  have hmul : k * h.2 < 2 ^ 128 := by
    calc k * h.2 < 2 ^ 32 * 2 ^ 64 := Nat.mul_lt_mul'' hk32 h1
    _ < 2 ^ 128 := by norm_num
  have hsum : h.1 + k * h.2 < 2 ^ 128 := by
    have : (2 : ℕ) ^ 64 + 2 ^ 32 * 2 ^ 64 < 2 ^ 128 := by norm_num
    have := Nat.mul_lt_mul'' hk32 h1
    omega
  rw [bloom_hash, if_neg (Nat.not_lt_of_le hk)]
  show (h.1 + k * h.2 % 2 ^ 128) % 2 ^ 128 % 2 ^ 64 % 0xffffffffffffffc5 = _
  rw [Nat.mod_eq_of_lt hmul, Nat.mod_eq_of_lt hsum]
  norm_num

/-- Witness for C2's amended theorem at the counterexample's input. -/
theorem claim_C2_witness :
    (2 : ℕ) ≤ 2 ∧ (2 : ℕ) < 2 ^ 32 ∧ (2 ^ 64 - 1 : ℕ) < 2 ^ 64 ∧
      (bloom_hash (fun _ _ => (0 : ℕ) : Unit → Unit → ℕ)
          (2 ^ 64 - 1, 1) () 2 ((), ())).2.2
        = (2 ^ 64 - 1 + 2 * 1) % 2 ^ 64 % (2 ^ 64 - 59) :=
  ⟨le_refl 2, by norm_num, by norm_num,
    claim_C2_derived_hash_truncates_first (fun _ _ => (0 : ℕ))
      (2 ^ 64 - 1, 1) () 2 ((), ()) (le_refl 2) (by norm_num) (by norm_num)
      (by norm_num)⟩

/-- C3, counterexample: `FilterBuilder::new(0, 2.0)` does *not* fail:
it returns a builder recording the invalid arguments, whereas the spec's
`newBuilder` rejects them at configuration time. -/
theorem claim_C3_counterexample :
    FilterBuilder.new 0 2 =
      { expected_elements := 0, false_positive_probability := 2, size := 0,
        hashes := 0, done := false } ∧
    newBuilder_spec 0 2 = none :=
  ⟨rfl, by simp [newBuilder_spec]⟩

/-- C3, amended: `FilterBuilder::new` performs no validation at all —
it stores its arguments unchecked.  The `InvalidParameter`-style checks
live only in the private setters: `expected_elements` panics exactly on
`0`, and `false_positive_probability` panics exactly outside `(0, 1)`. -/
theorem claim_C3_validation_only_in_setters (n : ℕ) (p : ℝ) (b : FilterBuilder) :
    FilterBuilder.new n p =
      { expected_elements := n, false_positive_probability := p, size := 0,
        hashes := 0, done := false } ∧
    ((b.set_expected_elements n).isSome ↔ 0 < n) ∧
    ((b.set_false_positive_probability p).isSome ↔ (p < 1 ∧ 0 < p)) := by
  refine ⟨rfl, ?_, ?_⟩
  · rw [FilterBuilder.set_expected_elements]
    split <;> simp_all
  · rw [FilterBuilder.set_false_positive_probability]
    split <;> simp_all

/-- C8: `is_compatible_to` holds exactly when the `size` and `hashes`
fields agree; it is therefore reflexive and symmetric, and two builders
completed from the same `(n, p)` are always compatible. -/
theorem claim_C8_compatibility (a b : FilterBuilder) (n : ℕ) (p : ℝ) :
    (FilterBuilder.is_compatible_to a b = true ↔
      a.size = b.size ∧ a.hashes = b.hashes) ∧
    FilterBuilder.is_compatible_to a a = true ∧
    FilterBuilder.is_compatible_to a b = FilterBuilder.is_compatible_to b a ∧
    FilterBuilder.is_compatible_to (FilterBuilder.new n p).complete
      (FilterBuilder.new n p).complete = true := by
  refine ⟨?_, ?_, ?_, ?_⟩
  · simp [FilterBuilder.is_compatible_to]
  · simp [FilterBuilder.is_compatible_to]
  · rw [Bool.eq_iff_iff]
    simp only [FilterBuilder.is_compatible_to, Bool.and_eq_true, beq_iff_eq]
    constructor
    · rintro ⟨u, v⟩
      exact ⟨u.symm, v.symm⟩
    · rintro ⟨u, v⟩
      exact ⟨u.symm, v.symm⟩
  · simp [FilterBuilder.is_compatible_to]

/-- C6: `complete` derives `size` via `optimal_m` and then `hashes`
via `optimal_k` applied to the already-rounded size precisely when the
size is still `0`; a caller-supplied (nonzero) size and its hash count are
kept unchanged; `done` is set; a `complete` on an already-completed
builder changes nothing, so `complete` never recomputes. -/
theorem claim_C6_complete_behaviour (b : FilterBuilder) :
    (b.done = false → b.size = 0 →
      b.complete =
        { b with
          size := optimal_m b.expected_elements b.false_positive_probability,
          hashes := optimal_k b.expected_elements
            (optimal_m b.expected_elements b.false_positive_probability),
          done := true }) ∧
    (b.done = false → b.size ≠ 0 → b.complete = { b with done := true }) ∧
    (b.done = true → b.complete = b) ∧
    b.complete.done = true ∧
    b.complete.complete = b.complete := by
  have hfix : ∀ c : FilterBuilder, c.done = true → c.complete = c := by
    intro c hc
    rw [FilterBuilder.complete, if_pos hc]
  have hdone : b.complete.done = true := by
    by_cases hd : b.done
    · rw [hfix b hd]
      exact hd
    · rw [FilterBuilder.complete, if_neg hd]
      by_cases hs : b.size = 0 <;> simp [hs]
  refine ⟨?_, ?_, hfix b, hdone, hfix _ hdone⟩
  · intro hd hs
    rw [FilterBuilder.complete, if_neg (by simp [hd]), if_pos hs]
  · intro hd hs
    rw [FilterBuilder.complete, if_neg (by simp [hd]), if_neg hs]

/-- Witness for C6 on a concrete builder with a caller-supplied size. -/
theorem claim_C6_witness :
    (⟨5, 1/2, 33, 4, false⟩ : FilterBuilder).done = false ∧
      (⟨5, 1/2, 33, 4, false⟩ : FilterBuilder).size ≠ 0 ∧
      FilterBuilder.complete ⟨5, 1/2, 33, 4, false⟩ = ⟨5, 1/2, 33, 4, true⟩ :=
  ⟨rfl, by decide,
    (claim_C6_complete_behaviour ⟨5, 1/2, 33, 4, false⟩).2.1 rfl (by decide)⟩

/-! ## Helper lemmas: numerical bounds on the logarithms

The `f64` logarithm is modelled by `Real.log`; the concrete values the
claims mention are pinned down by exact rational bounds.  `log (32/25)`
is bounded through the Taylor expansion of `log (1 - x)` at `x = -7/25`
(13 terms plus the standard tail estimate), and `log 100` is then
`7 * log 2 - log (32/25)`. -/

lemma log_32_div_25_bounds :
    (0.24686004 : ℝ) < Real.log (32 / 25) ∧ Real.log (32 / 25) < 0.24686012 := by
  have habs : |(-7 / 25 : ℝ)| = 7 / 25 := by
    rw [abs_of_neg (by norm_num)]
    norm_num
  have z := Real.abs_log_sub_add_sum_range_le (show |(-7 / 25 : ℝ)| < 1 by
    rw [habs]; norm_num) 13
  rw [habs, show (1 : ℝ) - (-7 / 25) = 32 / 25 by norm_num] at z
  rw [abs_le] at z
  obtain ⟨z1, z2⟩ := z
  simp_rw [Finset.sum_range_succ, Finset.sum_range_zero] at z1 z2
  norm_num at z1 z2
  constructor <;> linarith

lemma log_hundred_gt : (4.6051701421 : ℝ) < Real.log 100 := by
  have h2 := Real.log_two_gt_d9
  have h3 := log_32_div_25_bounds.2
  rw [show (100 : ℝ) = 2 ^ 7 / (32 / 25) by norm_num,
    Real.log_div (by norm_num) (by norm_num), Real.log_pow]
  push_cast
  linarith

lemma log_hundred_lt : Real.log 100 < 4.6051702256 := by
  have h2 := Real.log_two_lt_d9
  have h3 := log_32_div_25_bounds.1
  rw [show (100 : ℝ) = 2 ^ 7 / (32 / 25) by norm_num,
    Real.log_div (by norm_num) (by norm_num), Real.log_pow]
  push_cast
  linarith

lemma log_two_pos : (0 : ℝ) < Real.log 2 := by
  linarith [Real.log_two_gt_d9]

/-- The real value whose ceiling `optimal_m 216553 0.01` takes lies
strictly between `2075673` and `2075674`. -/
lemma fact_216553_bounds :
    (2075673 : ℝ) < 216553 * Real.log 100 / (Real.log 2) ^ 2 ∧
      216553 * Real.log 100 / (Real.log 2) ^ 2 < 2075674 := by
  have hsqu : Real.log 2 ^ 2 < (0.6931471808 : ℝ) ^ 2 := by
    nlinarith [Real.log_two_lt_d9, log_two_pos]
  have hsql : (0.6931471803 : ℝ) ^ 2 < Real.log 2 ^ 2 := by
    nlinarith [Real.log_two_gt_d9, log_two_pos]
  constructor
  · rw [lt_div_iff₀ (pow_pos log_two_pos 2)]
    calc (2075673 : ℝ) * Real.log 2 ^ 2
        < 2075673 * (0.6931471808 : ℝ) ^ 2 :=
          mul_lt_mul_of_pos_left hsqu (by norm_num)
      _ < 216553 * (4.6051701421 : ℝ) := by norm_num
      _ < 216553 * Real.log 100 :=
          mul_lt_mul_of_pos_left log_hundred_gt (by norm_num)
  · rw [div_lt_iff₀ (pow_pos log_two_pos 2)]
    calc (216553 : ℝ) * Real.log 100
        < 216553 * (4.6051702256 : ℝ) :=
          mul_lt_mul_of_pos_left log_hundred_lt (by norm_num)
      _ < 2075674 * (0.6931471803 : ℝ) ^ 2 := by norm_num
      _ < 2075674 * Real.log 2 ^ 2 :=
          mul_lt_mul_of_pos_left hsql (by norm_num)

lemma ceil_fact_216553 :
    ⌈(-((216553 : ℕ) : ℝ) * Real.log (1 / 100)) / (Real.log 2) ^ 2⌉
      = (2075674 : ℤ) := by
  have heq : (-((216553 : ℕ) : ℝ) * Real.log (1 / 100)) / (Real.log 2) ^ 2
      = 216553 * Real.log 100 / (Real.log 2) ^ 2 := by
    rw [one_div, Real.log_inv]
    push_cast
    ring
  rw [heq, Int.ceil_eq_iff]
  constructor
  · push_cast
    linarith [fact_216553_bounds.1]
  · push_cast
    linarith [fact_216553_bounds.2]

lemma ceil_k_216553 :
    ⌈(((2075680 : ℕ) : ℝ) * Real.log 2) / ((216553 : ℕ) : ℝ)⌉ = (7 : ℤ) := by
  rw [Int.ceil_eq_iff]
  have h1 := Real.log_two_gt_d9
  have h2 := Real.log_two_lt_d9
  constructor
  · push_cast
    rw [lt_div_iff₀ (by norm_num)]
    linarith
  · push_cast
    rw [div_le_iff₀ (by norm_num)]
    linarith

lemma optimal_m_216553 : optimal_m 216553 (1 / 100) = 2075680 := by
  simp only [optimal_m, toU64]
  rw [ceil_fact_216553]
  decide

lemma optimal_k_216553 : optimal_k 216553 2075680 = 7 := by
  simp only [optimal_k, toU32]
  rw [ceil_k_216553]
  decide

/-- Lemma: at `n = 2^63`, `p = 0.01` the (real) size value exceeds `2^64`: the
`u64` pipeline saturates and then wraps. -/
lemma ceil_fact_2_63 : (18446744073709551616 : ℤ) <
    ⌈(-((2 ^ 63 : ℕ) : ℝ) * Real.log (1 / 100)) / (Real.log 2) ^ 2⌉ := by
  have heq : (-((2 ^ 63 : ℕ) : ℝ) * Real.log (1 / 100)) / (Real.log 2) ^ 2
      = (2 ^ 63 : ℝ) * Real.log 100 / (Real.log 2) ^ 2 := by
    rw [one_div, Real.log_inv]
    push_cast
    ring
  have hsqu : Real.log 2 ^ 2 < (0.6931471808 : ℝ) ^ 2 := by
    nlinarith [Real.log_two_lt_d9, log_two_pos]
  rw [heq, Int.lt_ceil]
  push_cast
  rw [lt_div_iff₀ (pow_pos log_two_pos 2)]
  calc (18446744073709551616 : ℝ) * Real.log 2 ^ 2
      < 18446744073709551616 * (0.6931471808 : ℝ) ^ 2 :=
        mul_lt_mul_of_pos_left hsqu (by norm_num)
    _ < 2 ^ 63 * (4.6051701421 : ℝ) := by norm_num
    _ < 2 ^ 63 * Real.log 100 :=
        mul_lt_mul_of_pos_left log_hundred_gt (by positivity)

/-! ## Helper lemmas: positivity and alignment of the derived parameters -/

lemma optimal_m_mod_32 (n : ℕ) (p : ℝ) : optimal_m n p % 32 = 0 := by
  simp only [optimal_m]
  apply round32_mod_32
  simp only [toU64]
  omega

lemma optimal_m_pos (n : ℕ) (p : ℝ)
    (hA : 0 < ⌈(-(n : ℝ) * Real.log p) / (Real.log 2) ^ 2⌉)
    (hbound : (⌈(-(n : ℝ) * Real.log p) / (Real.log 2) ^ 2⌉).toNat ≤ 2 ^ 64 - 32) :
    1 ≤ optimal_m n p := by
  simp only [optimal_m, toU64]
  rw [min_eq_left (by omega), round32_eq_of_le _ hbound]
  split
  · omega
  · omega

lemma optimal_k_pos (n m : ℕ) (hn : 1 ≤ n) (hm : 1 ≤ m) : 1 ≤ optimal_k n m := by
  have hx : (0 : ℝ) < ((m : ℝ) * Real.log 2) / (n : ℝ) := by
    apply div_pos
    · exact mul_pos (by exact_mod_cast Nat.lt_of_lt_of_le Nat.zero_lt_one hm)
        log_two_pos
    · exact_mod_cast Nat.lt_of_lt_of_le Nat.zero_lt_one hn
  have hc := Int.ceil_pos.mpr hx
  simp only [optimal_k, toU32]
  omega

lemma fact_pos (n : ℕ) (p : ℝ) (hn : 1 ≤ n) (hp0 : 0 < p) (hp1 : p < 1) :
    (0 : ℝ) < (-(n : ℝ) * Real.log p) / (Real.log 2) ^ 2 := by
  apply div_pos
  · have hlog : Real.log p < 0 := Real.log_neg hp0 hp1
    have hn' : (1 : ℝ) ≤ (n : ℝ) := by exact_mod_cast hn
    nlinarith
  · exact pow_pos log_two_pos 2

/-- C7: the reference values — `optimal_m(216553, 0.01) = 2075680`
(where `0.01 = 1/100` exactly) and `optimal_k(216553, 2075680) = 7`. -/
theorem claim_C7_reference_values :
    optimal_m 216553 (1 / 100) = 2075680 ∧ optimal_k 216553 2075680 = 7 :=
  ⟨optimal_m_216553, optimal_k_216553⟩

/-- C4, counterexample: at the valid input `n = 2^63 > 0`,
`p = 1/100 ∈ (0,1)` the ideal size exceeds `2^64`, the `as u64` cast
saturates at `2^64 - 1`, and the rounding addition wraps to `0` — so
`optimal_m` does not equal the claimed "ceiling rounded up to a multiple
of 32" (which is positive). -/
theorem claim_C4_counterexample :
    optimal_m (2 ^ 63) (1 / 100) = 0 ∧ optimal_size_spec (2 ^ 63) (1 / 100) ≠ 0 := by
  have hc := ceil_fact_2_63
  constructor
  · simp only [optimal_m, toU64]
    rw [min_eq_right (by omega)]
    decide
  · simp only [optimal_size_spec]
    split
    · omega
    · omega

/-- C4, amended: for `n > 0` and `p ∈ (0,1)` such that the ceiling
value fits below `2^64 - 32` (no `u64` saturation or wrap — every
practically relevant input), `optimal_m` is exactly the ceiling
`⌈-n ln p / (ln 2)^2⌉` rounded up to a multiple of 32: unchanged if
already a multiple of 32, otherwise the smallest larger multiple. -/
theorem claim_C4_optimal_size_rounding (n : ℕ) (p : ℝ) (hn : 0 < n)
    (hp0 : 0 < p) (hp1 : p < 1)
    (hbound : (⌈(-(n : ℝ) * Real.log p) / (Real.log 2) ^ 2⌉).toNat ≤ 2 ^ 64 - 32) :
    optimal_m n p = optimal_size_spec n p := by
  simp only [optimal_m, optimal_size_spec, toU64]
  rw [min_eq_left (by omega)]
  exact round32_eq_of_le _ hbound

/-- Witness for C4's amended theorem at the reference input. -/
theorem claim_C4_witness :
    (0 : ℕ) < 216553 ∧ (0 : ℝ) < 1 / 100 ∧ (1 / 100 : ℝ) < 1 ∧
      (⌈(-((216553 : ℕ) : ℝ) * Real.log (1 / 100)) / (Real.log 2) ^ 2⌉).toNat
        ≤ 2 ^ 64 - 32 ∧
      optimal_m 216553 (1 / 100) = optimal_size_spec 216553 (1 / 100) :=
  ⟨by norm_num, by norm_num, by norm_num,
    by rw [ceil_fact_216553]; norm_num,
    claim_C4_optimal_size_rounding 216553 (1 / 100) (by norm_num) (by norm_num)
      (by norm_num) (by rw [ceil_fact_216553]; norm_num)⟩

/-- C5, counterexample: on the caller-supplied path the invariant
fails.  Starting from `new(5, 1/2)` and setting `size = 33` through the
(crate-private) `size` setter, `complete` keeps the caller's values
unchanged: the completed builder has `size = 33` (not a multiple of 32)
and `hashes = 0 < 1`. -/
theorem claim_C5_counterexample :
    ¬ (((FilterBuilder.new 5 (1 / 2)).set_size 33).complete.size % 32 = 0 ∧
        1 ≤ ((FilterBuilder.new 5 (1 / 2)).set_size 33).complete.hashes) := by
  decide

/-- C5, amended: on the derived path — `size` still `0` when
`complete` runs, valid parameters, and no `u64` overflow in the size
computation — the finalization invariant holds: the completed builder's
`size` is a multiple of 32 and its `hashes` is at least 1.  (The
divisibility half needs no hypotheses at all; `hashes ≥ 1` fails on the
caller-supplied path, see the counterexample.) -/
theorem claim_C5_finalization_invariant (b : FilterBuilder)
    (hdone : b.done = false) (hsize : b.size = 0)
    (hn : 1 ≤ b.expected_elements)
    (hp0 : 0 < b.false_positive_probability)
    (hp1 : b.false_positive_probability < 1)
    (hbound : (⌈(-(b.expected_elements : ℝ) *
        Real.log b.false_positive_probability) / (Real.log 2) ^ 2⌉).toNat
      ≤ 2 ^ 64 - 32) :
    b.complete.size % 32 = 0 ∧ 1 ≤ b.complete.hashes := by
  have hcomp : b.complete =
      { b with
        size := optimal_m b.expected_elements b.false_positive_probability,
        hashes := optimal_k b.expected_elements
          (optimal_m b.expected_elements b.false_positive_probability),
        done := true } := by
    rw [FilterBuilder.complete, if_neg (by simp [hdone]), if_pos hsize]
  rw [hcomp]
  exact ⟨optimal_m_mod_32 _ _,
    optimal_k_pos _ _ hn
      (optimal_m_pos _ _ (Int.ceil_pos.mpr (fact_pos _ _ hn hp0 hp1)) hbound)⟩

/-- Witness for C5's amended theorem: the builder `new(216553, 1/100)`. -/
theorem claim_C5_witness :
    (FilterBuilder.new 216553 (1 / 100)).done = false ∧
      (FilterBuilder.new 216553 (1 / 100)).size = 0 ∧
      1 ≤ (FilterBuilder.new 216553 (1 / 100)).expected_elements ∧
      (FilterBuilder.new 216553 (1 / 100)).complete.size % 32 = 0 ∧
      1 ≤ (FilterBuilder.new 216553 (1 / 100)).complete.hashes := by
  have hb : (⌈(-(((FilterBuilder.new 216553 (1 / 100)).expected_elements : ℕ) : ℝ) *
      Real.log (FilterBuilder.new 216553 (1 / 100)).false_positive_probability) /
      (Real.log 2) ^ 2⌉).toNat ≤ 2 ^ 64 - 32 := by
    show (⌈(-((216553 : ℕ) : ℝ) * Real.log (1 / 100)) / (Real.log 2) ^ 2⌉).toNat
      ≤ 2 ^ 64 - 32
    rw [ceil_fact_216553]
    norm_num
  have h := claim_C5_finalization_invariant (FilterBuilder.new 216553 (1 / 100))
    rfl rfl (by norm_num [FilterBuilder.new])
    (by show (0 : ℝ) < 1 / 100; norm_num)
    (by show (1 / 100 : ℝ) < 1; norm_num) hb
  exact ⟨rfl, rfl, by norm_num [FilterBuilder.new], h.1, h.2⟩

end Fastbloom
